import Mathlib

/-!
Verification development for the sales-dashboard pipeline (`app.py`).

The program normalizes an uploaded sales table (`procesar_datos`), filters it
(`filtrar_datos`), computes summary scalars (`total`, `iva`, `neto`,
`ticket_promedio`), and builds charts (`generar_graficos`) and a PDF.

We embed the pipeline shallowly:
  * a row-level model (`NormRow` lists) for the filter engine and the
    aggregations, since those only read rows;
  * a column-level model (`DF`) for the schema normalizer and the chart
    builder's column assignment, since those add/overwrite whole columns on
    the caller's pandas DataFrame object.
Amounts are modelled as exact rationals, dates as (year, month, day) triples
(pandas Timestamp comparison is chronological, i.e. lexicographic on these).
Python string operations (`.strip()`, `.lower()`, substring `in`) are
modelled on the character list of the string; the inputs exercised here are
ASCII, where the model agrees with Python.
-/

/-- Calendar date, as carried by the parsed 'Fecha' column. -/
structure Date where
  year : Int
  month : Nat
  day : Nat
deriving DecidableEq, Repr

/-- Chronological order on dates: pandas Timestamp comparison is
lexicographic on (year, month, day). -/
def Date.le (a b : Date) : Prop :=
  a.year < b.year ∨ (a.year = b.year ∧
    (a.month < b.month ∨ (a.month = b.month ∧ a.day ≤ b.day)))

instance (a b : Date) : Decidable (Date.le a b) := by
  unfold Date.le; infer_instance

/-- Localized month display name, as produced by
`calendar.month_name[x].capitalize()` under the es_ES locale set at the top
of app.py. -/
def month_name_es : Nat → String
  | 1 => "Enero"
  | 2 => "Febrero"
  | 3 => "Marzo"
  | 4 => "Abril"
  | 5 => "Mayo"
  | 6 => "Junio"
  | 7 => "Julio"
  | 8 => "Agosto"
  | 9 => "Septiembre"
  | 10 => "Octubre"
  | 11 => "Noviembre"
  | 12 => "Diciembre"
  | _ => ""

/-- One row of the dataset after `procesar_datos`: the original columns
('cliente', 'categoria', 'venta') together with the derived calendar columns
added at app.py lines 17-21. -/
structure NormRow where
  cliente : String
  categoria : String
  venta : ℚ
  Fecha : Date
  Mes : Nat
  Mes_Nombre : String
  Anio : Int
  Periodo : Int × Nat
deriving DecidableEq, Repr

/-- Row-level effect of `procesar_datos` (app.py lines 16-21) on one record:
derive 'Fecha', 'Mes', 'Mes_Nombre', 'Año', 'Periodo' from the parsed date. -/
def normalizeRow (cliente categoria : String) (venta : ℚ) (d : Date) : NormRow :=
  { cliente := cliente, categoria := categoria, venta := venta,
    Fecha := d, Mes := d.month, Mes_Nombre := month_name_es d.month,
    Anio := d.year, Periodo := (d.year, d.month) }

/-- Filter Engine, app.py lines 24-30: boolean-mask selection keeping rows
whose cliente is in the selected list, categoria in the selected list, and
Fecha within [fecha_inicio, fecha_fin], both endpoints inclusive
(`>=` and `<=` in the source). Pandas boolean masking keeps surviving rows
in their original order, which List.filter models. -/
def filtrar_datos (df : List NormRow) (clientes_seleccionados : List String)
    (categorias_seleccionadas : List String) (fecha_inicio fecha_fin : Date) :
    List NormRow :=
  df.filter (fun r =>
    decide (r.cliente ∈ clientes_seleccionados ∧
      r.categoria ∈ categorias_seleccionadas ∧
      Date.le fecha_inicio r.Fecha ∧ Date.le r.Fecha fecha_fin))

/-- CLAIM C1. The Filter Engine returns exactly the subsequence of input
records whose client is in the allowed client set, whose category is in the
allowed category set, and whose date lies in [start, end] inclusive,
preserving relative order (Sublist); an empty allowed client set yields an
empty result rather than an error. -/
theorem filtrar_datos_exact_subsequence (df : List NormRow)
    (cs ks : List String) (fi ff : Date) :
    (filtrar_datos df cs ks fi ff).Sublist df ∧
    (∀ r ∈ filtrar_datos df cs ks fi ff,
      r.cliente ∈ cs ∧ r.categoria ∈ ks ∧ Date.le fi r.Fecha ∧ Date.le r.Fecha ff) ∧
    (∀ r ∈ df, r.cliente ∈ cs → r.categoria ∈ ks → Date.le fi r.Fecha →
      Date.le r.Fecha ff → r ∈ filtrar_datos df cs ks fi ff) ∧
    (cs = [] → filtrar_datos df cs ks fi ff = []) := by
  refine ⟨List.filter_sublist df, ?_, ?_, ?_⟩
  · intro r hr
    have h := List.mem_filter.mp hr
    exact of_decide_eq_true h.2
  · intro r hr h1 h2 h3 h4
    exact List.mem_filter.mpr ⟨hr, decide_eq_true ⟨h1, h2, h3, h4⟩⟩
  · intro hcs
    subst hcs
    apply List.filter_eq_nil_iff.mpr
    intro r _
    simp only [decide_eq_true_eq]
    rintro ⟨h1, -⟩
    exact absurd h1 (List.not_mem_nil r.cliente)

/-- Witness for C1 at a concrete input: filtering a one-record dataset with
an empty client selection yields the empty result. -/
theorem filtrar_datos_exact_subsequence_witness :
    filtrar_datos [normalizeRow "A" "X" 100 ⟨2023, 1, 15⟩] [] ["X"]
      ⟨2023, 1, 1⟩ ⟨2023, 12, 31⟩ = [] :=
  (filtrar_datos_exact_subsequence
    [normalizeRow "A" "X" 100 ⟨2023, 1, 15⟩] [] ["X"]
    ⟨2023, 1, 1⟩ ⟨2023, 12, 31⟩).2.2.2 rfl

/-- CLAIM C9. Applying the Filter Engine twice with the same criteria gives
the same result as applying it once. -/
theorem filtrar_datos_idempotent (df : List NormRow)
    (cs ks : List String) (fi ff : Date) :
    filtrar_datos (filtrar_datos df cs ks fi ff) cs ks fi ff =
      filtrar_datos df cs ks fi ff := by
  apply List.filter_eq_self.mpr
  intro r hr
  exact (List.mem_filter.mp hr).2

/-- Sum of the 'venta' column: pandas `df['venta'].sum()` (app.py line 115). -/
def sumVenta (df : List NormRow) : ℚ := (df.map NormRow.venta).sum

/-- Per-group sum at one key: the value of `df.groupby(col)['venta'].sum()`
for group k, i.e. the sum of 'venta' over the rows whose grouping column
equals k. -/
def groupSum {κ : Type} [DecidableEq κ] (key : NormRow → κ) (df : List NormRow)
    (k : κ) : ℚ :=
  sumVenta (df.filter (fun r => decide (key r = k)))

/-- Keys of a groupby: the distinct values of the grouping column. -/
def groupKeys {κ : Type} [DecidableEq κ] (key : NormRow → κ) (df : List NormRow) :
    List κ :=
  (df.map key).dedup

/-- The per-group sums of one groupby, one entry per distinct key (app.py
lines 46-49 group by 'Periodo', 'cliente', 'categoria', 'Año'). -/
def groupTotals {κ : Type} [DecidableEq κ] (key : NormRow → κ) (df : List NormRow) :
    List ℚ :=
  (groupKeys key df).map (groupSum key df)

/-- Splitting a venta sum along a boolean predicate. -/
theorem sumVenta_filter_add (p : NormRow → Bool) (l : List NormRow) :
    sumVenta (l.filter p) + sumVenta (l.filter fun r => !(p r)) = sumVenta l := by
  induction l with
  | nil => simp [sumVenta]
  | cons x xs ih =>
    rcases Bool.eq_false_or_eq_true (p x) with h | h <;>
      simp only [sumVenta, List.filter_cons, h, Bool.not_true, Bool.not_false,
        List.map_cons, List.sum_cons, if_true, if_false, Bool.false_eq_true,
        Bool.true_eq_false, ite_true, ite_false] at ih ⊢ <;>
      linarith

/-- Summing the per-group sums over any duplicate-free key list covering the
dataset gives back the total. -/
theorem sum_groupSum_keys {κ : Type} [DecidableEq κ] (key : NormRow → κ)
    (keys : List κ) : ∀ df : List NormRow, keys.Nodup →
    (∀ r ∈ df, key r ∈ keys) → (keys.map (groupSum key df)).sum = sumVenta df := by
  induction keys with
  | nil =>
    intro df _ hall
    match df with
    | [] => simp [sumVenta]
    | r :: rs => exact absurd (hall r (List.mem_cons_self r rs)) (List.not_mem_nil _)
  | cons k ks ih =>
    intro df hnd hall
    have hk_notin : k ∉ ks := (List.nodup_cons.mp hnd).1
    have hnd2 : ks.Nodup := (List.nodup_cons.mp hnd).2
    have hsplit := sumVenta_filter_add (fun r => decide (key r = k)) df
    have hmap : ks.map (groupSum key df) =
        ks.map (groupSum key (df.filter fun r => !(decide (key r = k)))) := by
      apply List.map_congr_left
      intro k2 hk2
      have hne : k2 ≠ k := fun he => hk_notin (he ▸ hk2)
      unfold groupSum
      congr 1
      rw [List.filter_filter]
      apply List.filter_congr
      intro r _
      by_cases h : key r = k2
      · have hkr : ¬ (key r = k) := fun he => hne (h ▸ he.symm ▸ rfl)
        simp [h, hkr, hne]
      · simp [h]
    have hall2 : ∀ r ∈ (df.filter fun r => !(decide (key r = k))), key r ∈ ks := by
      intro r hr
      have hm := List.mem_filter.mp hr
      rcases List.mem_cons.mp (hall r hm.1) with he | hmem
      · exfalso
        have := hm.2
        simp [he] at this
      · exact hmem
    have ih2 := ih (df.filter fun r => !(decide (key r = k))) hnd2 hall2
    simp only [List.map_cons, List.sum_cons, hmap, ih2]
    unfold groupSum
    linarith

/-- CLAIM C2. For every filtered dataset, the sum of the per-group sums of
each of the groupings used by the app (by 'cliente', by 'categoria', by
'Año') equals the total-sales scalar computed over the same dataset. -/
theorem groupTotals_sum_eq_total (df : List NormRow) :
    (groupTotals NormRow.cliente df).sum = sumVenta df ∧
    (groupTotals NormRow.categoria df).sum = sumVenta df ∧
    (groupTotals NormRow.Anio df).sum = sumVenta df := by
  refine ⟨?_, ?_, ?_⟩ <;>
  · simp only [groupTotals, groupKeys]
    exact sum_groupSum_keys _ _ df (List.nodup_dedup _)
      (fun r hr => List.mem_dedup.mpr (List.mem_map_of_mem _ hr))

/-- Tax scalar, app.py line 116: `iva = total * 0.19`. The source applies no
rounding; amounts are modelled as exact rationals. -/
def iva (total : ℚ) : ℚ := total * (19 / 100)

/-- Net scalar, app.py line 117: `neto = total - iva`. -/
def neto (total : ℚ) : ℚ := total - iva total

/-- Rounding a value to two decimal places, as in the claim's
round(total * 0.19, 2). Mathlib's round is round-half-up while Python's is
round-half-to-even; the two agree away from exact midpoints, in particular
at every value used below. -/
def roundTo2 (q : ℚ) : ℚ := ((round (q * 100) : ℤ) : ℚ) / 100

/-- Dataset exhibiting the missing rounding: a single sale of 1.11. -/
def dfC3 : List NormRow := [normalizeRow "A" "X" (111 / 100) ⟨2023, 1, 15⟩]

/-- COUNTEREXAMPLE to claim C3. On a dataset with total = 1.11 the code's
tax scalar is total * 0.19 = 0.2109, whereas round(total * 0.19, 2) = 0.21;
the two differ, so the tax scalar does not equal the rounded value. -/
theorem iva_rounding_counterexample :
    iva (sumVenta dfC3) ≠ roundTo2 (sumVenta dfC3 * (19 / 100)) := by
  have h1 : sumVenta dfC3 = 111 / 100 := by
    simp [sumVenta, dfC3, normalizeRow]
  rw [h1]
  unfold iva roundTo2
  have h2 : ((111 : ℚ) / 100 * (19 / 100) * 100) = 2109 / 100 := by norm_num
  rw [h2]
  have h3 : round ((2109 : ℚ) / 100) = 21 := by
    rw [round_eq, Int.floor_eq_iff]
    norm_num
  rw [h3]
  norm_num

/-- CLAIM C3 (amended: the code applies no rounding). For every dataset, the
tax scalar equals total * 0.19 exactly, the net scalar equals total - tax
exactly (equivalently total * 0.81), tax and net recompose the total, and
both vanish on a zero total. -/
theorem iva_neto_exact (df : List NormRow) :
    iva (sumVenta df) = sumVenta df * (19 / 100) ∧
    neto (sumVenta df) = sumVenta df - iva (sumVenta df) ∧
    neto (sumVenta df) = sumVenta df * (81 / 100) ∧
    iva (sumVenta df) + neto (sumVenta df) = sumVenta df ∧
    iva 0 = 0 ∧ neto 0 = 0 := by
  refine ⟨rfl, rfl, by simp only [neto, iva]; ring,
    by simp only [neto, iva]; ring, by simp [iva], by simp [neto, iva]⟩

/-- Average ticket, app.py line 118:
`df_filtrado.groupby('cliente')['venta'].sum().mean()`. The mean of a pandas
Series is NaN when the Series is empty; the model returns none in that case
and some (sum / count) otherwise. -/
def ticket_promedio (df : List NormRow) : Option ℚ :=
  let sums := groupTotals NormRow.cliente df
  if sums.length = 0 then none else some (sums.sum / (sums.length : ℚ))

/-- CLAIM C4 (the code violates it). On an empty filtered dataset there are
zero surviving clients and the code's average ticket is the mean of an empty
Series: undefined (NaN in pandas, none here) rather than the 0 or sentinel
the claim requires; app.py then formats this value straight into the
displayed metric (line 123) and the PDF summary text (line 136). -/
theorem ticket_promedio_empty_undefined : ticket_promedio [] = none := rfl

/-- Python str.lower() on the character sequence (the categories exercised
here are ASCII, where Char.toLower agrees with Python). -/
def lowerL (cs : List Char) : List Char := cs.map Char.toLower

/-- Whether pat occurs at the start of s, on the character-list view. -/
def isPreL : List Char → List Char → Bool
  | [], _ => true
  | _ :: _, [] => false
  | p :: ps, c :: cs => p == c && isPreL ps cs

/-- Python substring test (pat in s) on the character-list view. -/
def subL (pat : List Char) : List Char → Bool
  | [] => pat.isEmpty
  | c :: cs => isPreL pat (c :: cs) || subL pat cs

/-- Characterization of the starts-with test. -/
theorem isPreL_iff (p : List Char) : ∀ s : List Char,
    isPreL p s = true ↔ ∃ t, s = p ++ t := by
  induction p with
  | nil => intro s; simp [isPreL]
  | cons a ps ih =>
    intro s
    match s with
    | [] => simp [isPreL]
    | c :: cs =>
      simp only [isPreL, Bool.and_eq_true, beq_iff_eq, ih, List.cons_append,
        List.cons.injEq]
      constructor
      · rintro ⟨rfl, t, rfl⟩
        exact ⟨t, rfl, rfl⟩
      · rintro ⟨t, rfl, rfl⟩
        exact ⟨rfl, t, rfl⟩

/-- Characterization of the substring test. -/
theorem subL_iff (p : List Char) : ∀ s : List Char,
    subL p s = true ↔ ∃ l t, s = l ++ p ++ t := by
  intro s
  induction s with
  | nil =>
    simp only [subL, List.isEmpty_iff]
    constructor
    · rintro rfl
      exact ⟨[], [], rfl⟩
    · rintro ⟨l, t, h⟩
      rcases List.append_eq_nil.mp h.symm with ⟨h1, h2⟩
      exact (List.append_eq_nil.mp h1).2
  | cons c cs ih =>
    simp only [subL, Bool.or_eq_true, isPreL_iff, ih]
    constructor
    · rintro (⟨t, ht⟩ | ⟨l, t, ht⟩)
      · exact ⟨[], t, by simpa using ht⟩
      · exact ⟨c :: l, t, by simp [ht]⟩
    · rintro ⟨l, t, ht⟩
      match l, ht with
      | [], ht => exact Or.inl ⟨t, by simpa using ht⟩
      | x :: l2, ht =>
        right
        rcases List.cons.injEq .. ▸ ht with ⟨-, h2⟩
        exact ⟨l2, t, by simpa using h2⟩

/-- Classification at app.py line 35: a record's 'Tipo Proveedor' is 'Nuevo'
when the substring 'nuevo' occurs in str(x).lower() of its category, and
'Frecuente' otherwise. -/
def tipoProveedor (cat : String) : String :=
  if subL ("nuevo".data) (lowerL cat.data) then "Nuevo" else "Frecuente"

/-- Pie-chart data at app.py line 60: value_counts of the 'Tipo Proveedor'
column, given as (count of 'Nuevo', count of 'Frecuente'). -/
def tipo_counts (df : List NormRow) : Nat × Nat :=
  (df.countP (fun r => tipoProveedor r.categoria == "Nuevo"),
   df.countP (fun r => tipoProveedor r.categoria == "Frecuente"))

/-- Example dataset of the spec: 2023-01 $100 client A category
'Nuevo Proveedor'; 2023-02 $200 client B category 'Proveedor X'. -/
def dfEjemplo : List NormRow :=
  [normalizeRow "A" "Nuevo Proveedor" 100 ⟨2023, 1, 1⟩,
   normalizeRow "B" "Proveedor X" 200 ⟨2023, 2, 1⟩]

/-- Nuevo-classification holds exactly on categories whose lowercased
character sequence contains 'nuevo' as a substring. -/
theorem tipoProveedor_eq_nuevo_iff (cat : String) :
    tipoProveedor cat = "Nuevo" ↔
      ∃ l t, lowerL cat.data = l ++ ("nuevo".data) ++ t := by
  unfold tipoProveedor
  cases h : subL ("nuevo".data) (lowerL cat.data) with
  | true =>
    have hx := (subL_iff "nuevo".data (lowerL cat.data)).mp h
    rw [if_pos rfl]
    exact ⟨fun _ => hx, fun _ => rfl⟩
  | false =>
    have hne : ("Frecuente" : String) ≠ "Nuevo" := by decide
    simp only [h, Bool.false_eq_true, if_false]
    constructor
    · intro hc; exact absurd hc hne
    · intro hex
      have := (subL_iff "nuevo".data (lowerL cat.data)).mpr hex
      rw [this] at h
      exact absurd h (by simp)

/-- CLAIM C7. A record is classified 'Nuevo' (New) exactly when its category
contains the case-insensitive substring 'nuevo' (the localized form of
"new" under the app's es_ES locale), and 'Frecuente' (Recurring) otherwise;
on the spec's two-record example dataset the class counts are one 'Nuevo'
and one 'Frecuente'. -/
theorem tipoProveedor_substring_and_example :
    (∀ cat : String,
      (tipoProveedor cat = "Nuevo" ↔
        ∃ l t, lowerL cat.data = l ++ ("nuevo".data) ++ t) ∧
      (tipoProveedor cat = "Nuevo" ∨ tipoProveedor cat = "Frecuente")) ∧
    tipo_counts dfEjemplo = (1, 1) := by
  refine ⟨fun cat => ⟨tipoProveedor_eq_nuevo_iff cat, ?_⟩, by decide⟩
  unfold tipoProveedor
  cases h : subL ("nuevo".data) (lowerL cat.data) <;> simp [h]

/-- Witness for C7 at a concrete input: the category 'Nuevo Proveedor' is
classified 'Nuevo'. -/
theorem tipoProveedor_substring_and_example_witness :
    tipoProveedor "Nuevo Proveedor" = "Nuevo" :=
  (tipoProveedor_substring_and_example.1 "Nuevo Proveedor").1.mpr
    ⟨[], (" proveedor".data), by decide⟩

/-- Code points of two characters agree only when the characters do. -/
theorem charToNat_inj {a b : Char} (h : Char.toNat a = Char.toNat b) : a = b :=
  Char.ext (UInt32.ext h)

/-- Lexicographic code-point order on character lists: how Python compares
strings, hence the ascending order in which pandas sorts a string-valued
index. -/
def lexLe : List Char → List Char → Bool
  | [], _ => true
  | _ :: _, [] => false
  | a :: as, b :: bs =>
    if Char.toNat a = Char.toNat b then lexLe as bs
    else decide (Char.toNat a < Char.toNat b)

/-- String comparison on the character-list view. -/
def strLe (a b : String) : Bool := lexLe a.data b.data

/-- Totality of the lexicographic comparison. -/
theorem lexLe_total (as : List Char) : ∀ bs : List Char,
    lexLe as bs = true ∨ lexLe bs as = true := by
  induction as with
  | nil => intro bs; exact Or.inl rfl
  | cons a as ih =>
    intro bs
    match bs with
    | [] => exact Or.inr rfl
    | b :: bs2 =>
      simp only [lexLe]
      by_cases hab : Char.toNat a = Char.toNat b
      · rw [if_pos hab, if_pos hab.symm]
        exact ih bs2
      · rw [if_neg hab, if_neg (fun h => hab h.symm)]
        rcases Nat.lt_or_ge (Char.toNat a) (Char.toNat b) with h | h
        · exact Or.inl (decide_eq_true h)
        · exact Or.inr (decide_eq_true (by omega))

/-- Transitivity of the lexicographic comparison. -/
theorem lexLe_trans (as : List Char) : ∀ bs cs : List Char,
    lexLe as bs = true → lexLe bs cs = true → lexLe as cs = true := by
  induction as with
  | nil => intro bs cs _ _; rfl
  | cons a as ih =>
    intro bs cs h1 h2
    match bs, cs with
    | [], _ => simp [lexLe] at h1
    | _ :: _, [] => simp [lexLe] at h2
    | b :: bs2, c :: cs2 =>
      simp only [lexLe] at h1 h2 ⊢
      by_cases hab : Char.toNat a = Char.toNat b <;>
        by_cases hbc : Char.toNat b = Char.toNat c
      · rw [if_pos hab] at h1
        rw [if_pos hbc] at h2
        rw [if_pos (hab.trans hbc)]
        exact ih bs2 cs2 h1 h2
      · rw [if_pos hab] at h1
        rw [if_neg hbc] at h2
        have hlt : Char.toNat b < Char.toNat c := of_decide_eq_true h2
        rw [if_neg (by omega)]
        exact decide_eq_true (by omega)
      · rw [if_neg hab] at h1
        rw [if_pos hbc] at h2
        have hlt : Char.toNat a < Char.toNat b := of_decide_eq_true h1
        rw [if_neg (by omega)]
        exact decide_eq_true (by omega)
      · rw [if_neg hab] at h1
        rw [if_neg hbc] at h2
        have hlt1 : Char.toNat a < Char.toNat b := of_decide_eq_true h1
        have hlt2 : Char.toNat b < Char.toNat c := of_decide_eq_true h2
        rw [if_neg (by omega)]
        exact decide_eq_true (by omega)

/-- Antisymmetry of the lexicographic comparison. -/
theorem lexLe_antisymm (as : List Char) : ∀ bs : List Char,
    lexLe as bs = true → lexLe bs as = true → as = bs := by
  induction as with
  | nil =>
    intro bs _ h2
    match bs with
    | [] => rfl
    | b :: bs2 => simp [lexLe] at h2
  | cons a as ih =>
    intro bs h1 h2
    match bs with
    | [] => simp [lexLe] at h1
    | b :: bs2 =>
      simp only [lexLe] at h1 h2
      by_cases hab : Char.toNat a = Char.toNat b
      · rw [if_pos hab] at h1
        rw [if_pos hab.symm] at h2
        rw [charToNat_inj hab, ih bs2 h1 h2]
      · rw [if_neg hab] at h1
        rw [if_neg (fun h => hab h.symm)] at h2
        have hlt1 : Char.toNat a < Char.toNat b := of_decide_eq_true h1
        have hlt2 : Char.toNat b < Char.toNat a := of_decide_eq_true h2
        omega

instance : IsTrans String (fun a b : String => strLe a b = true) :=
  ⟨fun a b c => lexLe_trans a.data b.data c.data⟩

instance : IsTotal String (fun a b : String => strLe a b = true) :=
  ⟨fun a b => lexLe_total a.data b.data⟩

instance : IsAntisymm String (fun a b : String => strLe a b = true) :=
  ⟨fun a b h1 h2 => by
    cases a; cases b
    exact congrArg String.mk (lexLe_antisymm _ _ h1 h2)⟩

/-- Month axis of the year-over-year chart, app.py line 52:
`pivot_table(index='Mes_Nombre', columns='Año', values='venta',
aggfunc='sum')` builds its row index from the distinct values of the
'Mes_Nombre' column and sorts it ascending; for these string-valued month
names that is lexicographic code-point order. -/
def pivot_index (df : List NormRow) : List String :=
  List.insertionSort (fun a b : String => strLe a b = true)
    ((df.map NormRow.Mes_Nombre).dedup)

/-- Calendar ordering of the months present in a dataset: month numbers
1..12 in order, restricted to those occurring, rendered as display names. -/
def calendar_index (df : List NormRow) : List String :=
  (((List.range 12).map (· + 1)).filter
    (fun m => df.any (fun r => r.Mes == m))).map month_name_es

/-- Dataset with sales in Abril (April) and Enero (January) 2023. -/
def dfMeses : List NormRow :=
  [normalizeRow "A" "X" 100 ⟨2023, 4, 10⟩,
   normalizeRow "B" "Y" 200 ⟨2023, 1, 5⟩]

/-- COUNTEREXAMPLE to claim C6. On a dataset with records in Enero and
Abril, the chart's month axis is [Abril, Enero] (lexicographic by name)
while calendar order is [Enero, Abril]: the axis is not in calendar order. -/
theorem pivot_index_not_calendar :
    pivot_index dfMeses = ["Abril", "Enero"] ∧
    calendar_index dfMeses = ["Enero", "Abril"] ∧
    pivot_index dfMeses ≠ calendar_index dfMeses := by
  refine ⟨by decide, by decide, by decide⟩

/-- CLAIM C6 (amended: the axis is sorted by localized month name, not by
calendar position). The month axis of the year-over-year chart is the list
of distinct localized month names of the dataset sorted lexicographically;
it is invariant under reordering of the input rows, but (per the
counterexample) lexicographic name order differs from calendar order. -/
theorem pivot_index_sorted_lex (df df2 : List NormRow) (hperm : df.Perm df2) :
    (pivot_index df).Sorted (fun a b : String => strLe a b = true) ∧
    (pivot_index df).Perm ((df.map NormRow.Mes_Nombre).dedup) ∧
    pivot_index df = pivot_index df2 := by
  refine ⟨List.sorted_insertionSort _ _, List.perm_insertionSort _ _, ?_⟩
  exact List.eq_of_perm_of_sorted
    (((List.perm_insertionSort _ _).trans
      ((hperm.map NormRow.Mes_Nombre).dedup)).trans
      (List.perm_insertionSort _ _).symm)
    (List.sorted_insertionSort _ _) (List.sorted_insertionSort _ _)

/-- Witness for C6 (amended) at a concrete input: the concrete axis of the
Enero/Abril dataset is lexicographically sorted. -/
theorem pivot_index_sorted_lex_witness :
    (pivot_index dfMeses).Sorted (fun a b : String => strLe a b = true) :=
  (pivot_index_sorted_lex dfMeses dfMeses (List.Perm.refl dfMeses)).1

/-- A cell of the tabular model. -/
inductive Value
  | str (s : String)
  | num (q : ℚ)
  | date (d : Date)
  | natv (n : Nat)
  | intv (i : Int)
  | period (y : Int) (m : Nat)
deriving DecidableEq, Repr

/-- Column-level model of a pandas DataFrame: the ordered column names plus
the contents of each named column (empty for absent columns). -/
structure DF where
  cols : List String
  data : String → List Value

/-- Python column assignment df[c] = v: overwrites the column when the name
is already present, otherwise appends a new column at the end of the column
order. -/
def DF.setCol (df : DF) (c : String) (v : List Value) : DF :=
  { cols := if c ∈ df.cols then df.cols else df.cols ++ [c],
    data := fun c2 => if c2 = c then v else df.data c2 }

theorem setCol_cols_of_mem (df : DF) (c : String) (v : List Value)
    (h : c ∈ df.cols) : (df.setCol c v).cols = df.cols := by
  simp [DF.setCol, h]

theorem setCol_cols_of_not_mem (df : DF) (c : String) (v : List Value)
    (h : c ∉ df.cols) : (df.setCol c v).cols = df.cols ++ [c] := by
  simp [DF.setCol, h]

theorem setCol_data_ne (df : DF) (c : String) (v : List Value) (c2 : String)
    (h : c2 ≠ c) : (df.setCol c v).data c2 = df.data c2 := by
  simp [DF.setCol, h]

theorem setCol_data_eq (df : DF) (c : String) (v : List Value) :
    (df.setCol c v).data c = v := by
  simp [DF.setCol]

/-- Whitespace stripping of Python str.strip(), on the character list. -/
def stripL (cs : List Char) : List Char :=
  ((cs.dropWhile Char.isWhitespace).reverse.dropWhile Char.isWhitespace).reverse

/-- Column-name normalization used at app.py line 15: col.strip().lower(). -/
def normCol (c : String) : String := String.mk (lowerL (stripL c.data))

/-- Date-column lookup at app.py line 15:
`[col for col in df.columns if col.strip().lower() == 'fecha'][0]`.
Indexing [0] on an empty list raises IndexError (modelled none); with one
or more matches it silently selects the first, in column order. -/
def col_fecha (cols : List String) : Option String :=
  (cols.filter (fun c => normCol c == "fecha")).head?

/-- A successful lookup returns a column of the table whose normalized name
is 'fecha'. -/
theorem col_fecha_some_spec (cols : List String) (c0 : String)
    (h : col_fecha cols = some c0) : c0 ∈ cols ∧ normCol c0 = "fecha" := by
  unfold col_fecha at h
  have hm : c0 ∈ cols.filter (fun c => normCol c == "fecha") :=
    List.mem_of_mem_head? (Option.mem_def.mpr h)
  have := List.mem_filter.mp hm
  exact ⟨this.1, by simpa using this.2⟩

/-- Date payload of a cell. In every run reaching the code modelled below
the relevant column holds dates; other cells get a placeholder. -/
def Value.getDate : Value → Date
  | .date d => d
  | _ => ⟨0, 0, 0⟩

/-- Python str(x), as applied at app.py line 35 to the 'categoria' column,
which holds strings. -/
def Value.pyStr : Value → String
  | .str s => s
  | _ => ""

/-- pd.to_datetime at app.py line 16. Date parsing is outside the claims
settled here: the model takes date cells as already parsed, and on parsed
dates to_datetime is the identity. -/
def to_datetime (v : Value) : Value := v

/-- Schema Normalizer, app.py lines 14-22, at column level: locate the date
column, overwrite it with its parsed values, then assign the derived
columns 'Fecha', 'Mes', 'Mes_Nombre', 'Año', 'Periodo' onto the same
DataFrame, returning it; none models the IndexError when no column
normalizes to 'fecha'. -/
def procesar_datos_df (df : DF) : Option DF :=
  match col_fecha df.cols with
  | none => none
  | some cf =>
    let df1 := df.setCol cf ((df.data cf).map to_datetime)
    let df2 := df1.setCol "Fecha" (df1.data cf)
    let df3 := df2.setCol "Mes"
      ((df2.data "Fecha").map (fun v => Value.natv v.getDate.month))
    let df4 := df3.setCol "Mes_Nombre"
      ((df3.data "Fecha").map (fun v => Value.str (month_name_es v.getDate.month)))
    let df5 := df4.setCol "Año"
      ((df4.data "Fecha").map (fun v => Value.intv v.getDate.year))
    let df6 := df5.setCol "Periodo"
      ((df5.data "Fecha").map (fun v => Value.period v.getDate.year v.getDate.month))
    some df6

/-- Call-site semantics of `df = procesar_datos(df)` (app.py line 96): the
DataFrame object is passed by reference, mutated by the column assignments,
and returned, so after the call the caller's object is the same mutated
table as the returned one. The pair is (return value, caller's table after
the call). -/
def procesar_datos_call (df : DF) : Option (DF × DF) :=
  (procesar_datos_df df).map (fun r => (r, r))

/-- COUNTEREXAMPLE to claim C5. In a table whose headers include both
'fecha' and 'Fecha ', two columns normalize to 'fecha'; the claim requires
the normalizer to fail on more than one match, but the lookup proceeds,
silently selecting the first match. -/
theorem col_fecha_two_matches_proceeds :
    (["fecha", "Fecha ", "cliente"].countP (fun c => normCol c == "fecha")) = 2 ∧
    col_fecha ["fecha", "Fecha ", "cliente"] = some "fecha" :=
  ⟨by decide, by decide⟩

/-- CLAIM C5 (amended: only the zero-match case fails). The Schema
Normalizer fails exactly when the number of columns whose trimmed,
lowercased name equals 'fecha' is zero (an IndexError from the [0] lookup,
surfaced by the top-level handler); whenever one or more columns match it
proceeds with the first matching column instead of failing. -/
theorem col_fecha_none_iff_zero_matches (cols : List String) :
    (col_fecha cols = none ↔
      cols.countP (fun c => normCol c == "fecha") = 0) ∧
    (0 < cols.countP (fun c => normCol c == "fecha") →
      ∃ c0, col_fecha cols = some c0 ∧ c0 ∈ cols ∧ normCol c0 = "fecha") := by
  constructor
  · rw [List.countP_eq_length_filter]
    unfold col_fecha
    rw [List.head?_eq_none_iff, List.length_eq_zero]
  · intro hpos
    cases hc : col_fecha cols with
    | none =>
      unfold col_fecha at hc
      rw [List.head?_eq_none_iff] at hc
      rw [List.countP_eq_length_filter, hc] at hpos
      simp at hpos
    | some c0 =>
      exact ⟨c0, rfl, (col_fecha_some_spec cols c0 hc).1,
        (col_fecha_some_spec cols c0 hc).2⟩

/-- Witness for C5 (amended) at a concrete input: a table with no date-like
header makes the lookup fail. -/
theorem col_fecha_none_iff_zero_matches_witness :
    col_fecha ["dia", "cliente"] = none :=
  (col_fecha_none_iff_zero_matches ["dia", "cliente"]).1.mpr (by decide)

/-- Concrete raw table: columns fecha, cliente, categoria, venta, one row. -/
def dfRaw : DF :=
  { cols := ["fecha", "cliente", "categoria", "venta"],
    data := fun c =>
      if c = "fecha" then [Value.date ⟨2023, 1, 15⟩]
      else if c = "cliente" then [Value.str "A"]
      else if c = "categoria" then [Value.str "Nuevo Proveedor"]
      else if c = "venta" then [Value.num 100]
      else [] }

/-- COUNTEREXAMPLE to claim C8. Running the Schema Normalizer on the
concrete table dfRaw leaves the caller's table carrying five extra derived
columns: the caller's original table is not left unchanged, because
procesar_datos assigns the columns onto the caller's object instead of
building a new structure. -/
theorem procesar_datos_not_pure :
    ¬ (∀ (df : DF) (p : DF × DF), procesar_datos_call df = some p → p.2 = df) := by
  intro h
  have hcols : (procesar_datos_call dfRaw).map (fun p => p.2.cols) = some
      ["fecha", "cliente", "categoria", "venta", "Fecha", "Mes", "Mes_Nombre",
       "Año", "Periodo"] := by decide
  cases hc : procesar_datos_call dfRaw with
  | none => rw [hc] at hcols; exact Option.noConfusion hcols
  | some p =>
    rw [hc] at hcols
    simp only [Option.map_some'] at hcols
    have h2 := Option.some.inj hcols
    rw [h dfRaw p hc] at h2
    exact absurd h2 (by decide)

/-- CLAIM C8 (amended: the normalizer mutates the caller's table in place).
Whenever procesar_datos succeeds on a table whose columns do not already
use the derived names, it returns the very object the caller passed, now
mutated: the caller's table after the call is the returned one, and its
column order is the original columns followed by 'Fecha', 'Mes',
'Mes_Nombre', 'Año', 'Periodo'. -/
theorem procesar_datos_mutates_in_place (df : DF) (p : DF × DF)
    (hc : procesar_datos_call df = some p)
    (hfresh : ∀ c ∈ ["Fecha", "Mes", "Mes_Nombre", "Año", "Periodo"],
      c ∉ df.cols) :
    p.1 = p.2 ∧
    p.2.cols = df.cols ++ ["Fecha", "Mes", "Mes_Nombre", "Año", "Periodo"] := by
  unfold procesar_datos_call procesar_datos_df at hc
  cases hcf : col_fecha df.cols with
  | none =>
    rw [hcf] at hc
    exact Option.noConfusion hc
  | some cf =>
    rw [hcf] at hc
    simp only [Option.map_some'] at hc
    obtain rfl := (Option.some.inj hc).symm
    refine ⟨rfl, ?_⟩
    have hm := (col_fecha_some_spec df.cols cf hcf).1
    have hF := hfresh "Fecha" (by decide)
    have hM := hfresh "Mes" (by decide)
    have hMN := hfresh "Mes_Nombre" (by decide)
    have hA := hfresh "Año" (by decide)
    have hP := hfresh "Periodo" (by decide)
    have d1 : ("Mes" : String) ≠ "Fecha" := by decide
    have d2 : ("Mes_Nombre" : String) ≠ "Fecha" := by decide
    have d3 : ("Mes_Nombre" : String) ≠ "Mes" := by decide
    have d4 : ("Año" : String) ≠ "Fecha" := by decide
    have d5 : ("Año" : String) ≠ "Mes" := by decide
    have d6 : ("Año" : String) ≠ "Mes_Nombre" := by decide
    have d7 : ("Periodo" : String) ≠ "Fecha" := by decide
    have d8 : ("Periodo" : String) ≠ "Mes" := by decide
    have d9 : ("Periodo" : String) ≠ "Mes_Nombre" := by decide
    have d10 : ("Periodo" : String) ≠ "Año" := by decide
    simp only [DF.setCol, List.mem_append, List.mem_singleton]
    simp [hm, hF, hM, hMN, hA, hP, d1, d2, d3, d4, d5, d6, d7, d8, d9, d10,
      List.append_assoc]

/-- Normalized version of the concrete table, used for the witnesses. -/
def dfRawProcessed : DF := (procesar_datos_df dfRaw).getD ⟨[], fun _ => []⟩

/-- Witness for C8 (amended) at a concrete input: on dfRaw the caller ends
up holding the table with the five derived columns appended. -/
theorem procesar_datos_mutates_in_place_witness :
    (dfRawProcessed, dfRawProcessed).2.cols =
      dfRaw.cols ++ ["Fecha", "Mes", "Mes_Nombre", "Año", "Periodo"] :=
  (procesar_datos_mutates_in_place dfRaw (dfRawProcessed, dfRawProcessed)
    rfl (by decide)).2

/-- Chart Builder column effect, app.py line 35: generar_graficos assigns
the derived classification column 'Tipo Proveedor' onto the DataFrame it
was passed (the filtered dataset); every later line of the function only
reads the table to build figures. -/
def generar_graficos_df (df : DF) : DF :=
  df.setCol "Tipo Proveedor"
    ((df.data "categoria").map (fun v => Value.str (tipoProveedor v.pyStr)))

/-- CLAIM C10. On a dataset not already carrying 'Tipo Proveedor' (the
filtered dataset never does), the chart builder appends exactly the one
derived column 'Tipo Proveedor', computed row-wise from 'categoria' with
one entry per row; every other column, every row, and the row order of the
dataset are unchanged. -/
theorem generar_graficos_adds_one_column (df : DF)
    (h : "Tipo Proveedor" ∉ df.cols) :
    (generar_graficos_df df).cols = df.cols ++ ["Tipo Proveedor"] ∧
    (∀ c, c ≠ "Tipo Proveedor" → (generar_graficos_df df).data c = df.data c) ∧
    (generar_graficos_df df).data "Tipo Proveedor" =
      (df.data "categoria").map (fun v => Value.str (tipoProveedor v.pyStr)) ∧
    ((generar_graficos_df df).data "Tipo Proveedor").length =
      (df.data "categoria").length := by
  refine ⟨setCol_cols_of_not_mem df _ _ h,
    fun c hc => setCol_data_ne df _ _ c hc, setCol_data_eq df _ _, ?_⟩
  unfold generar_graficos_df
  rw [setCol_data_eq]
  exact List.length_map _ _

/-- Witness for C10 at a concrete input. -/
theorem generar_graficos_adds_one_column_witness :
    (generar_graficos_df dfRaw).cols = dfRaw.cols ++ ["Tipo Proveedor"] :=
  (generar_graficos_adds_one_column dfRaw (by decide)).1
